import Mathlib

/-!
Shallow embedding of `InstallRequirements.py`.

Strings are modelled as `List Char` (one Python `str` character per list
element).  Python's file system, environment enumeration and subprocess
calls are modelled by explicit world records supplying the outcome of each
external interaction; `print` logging is modelled as a Boolean flag, and
the temporary-file lifecycle of `install_packages` as an explicit event
trace.
-/

namespace InstallReq

/-- A Python `str`, modelled as its list of characters. -/
abbrev Str := List Char

/-- The characters removed by Python's `str.strip()` (ASCII whitespace). -/
def isPySpace (c : Char) : Bool :=
  c == ' ' || c == '\t' || c == '\n' || c == '\r' || c == '\x0b' || c == '\x0c'

/-- A character matched by the character class `[a-zA-Z0-9_-]` of the
regex in `parse_requirement_line`. -/
def isNameChar (c : Char) : Bool :=
  c.isAlphanum || c == '_' || c == '-'

/-- Remove trailing `isPySpace` characters (the right half of `strip()`). -/
def dropTrailing (l : Str) : Str :=
  (l.reverse.dropWhile isPySpace).reverse

/-- Python's `str.strip()`: remove leading and trailing whitespace. -/
def pyStrip (l : Str) : Str :=
  dropTrailing (l.dropWhile isPySpace)

/-- Python's `str.startswith(p)`. -/
def startsWithL : Str → Str → Bool
  | [], _ => true
  | _ :: _, [] => false
  | p :: ps, c :: cs => p == c && startsWithL ps cs

/-- Python's `str.replace('==', '')`: remove every (non-overlapping,
left-to-right) occurrence of `==`. -/
def removeEqEq : Str → Str
  | '=' :: '=' :: rest => removeEqEq rest
  | c :: rest => c :: removeEqEq rest
  | [] => []

/-- The dict returned by `parse_requirement_line` (lines 31-35):
`name` / `spec` / `version_spec`. -/
structure RequirementEntry where
  name : Str
  spec : Str
  version_spec : Str
deriving DecidableEq, Repr

/-- `parse_requirement_line` (lines 15-36).  `line.strip()` first; empty,
`#`- and `http`-prefixed lines give `None`; the part before the first `[`
is matched against `^([a-zA-Z0-9_-]+)(.*)` (where `.` does not match a
newline); group 1 is lowercased with `_` replaced by `-`; group 2 is
stripped to give the version spec; `spec` stores the stripped line. -/
def parseRequirementLine (line : Str) : Option RequirementEntry :=
  let l := pyStrip line
  if l.isEmpty || startsWithL ['#'] l || startsWithL ['h', 't', 't', 'p'] l then
    none
  else
    let package_part := l.takeWhile (fun c => !(c == '['))
    let pname := package_part.takeWhile isNameChar
    if pname.isEmpty then
      none
    else
      some { name := (pname.map Char.toLower).map (fun c => if c == '_' then '-' else c)
             spec := l
             version_spec :=
               pyStrip ((package_part.dropWhile isNameChar).takeWhile (fun c => !(c == '\n'))) }

/-- `parse_requirements` (lines 38-50).  The file read is modelled as the
lines successfully read paired with an optional I/O error that interrupted
the read; on an error the accumulated entries are discarded, the error is
logged (second component `true`) and the empty list is returned. -/
def parseRequirements (readRes : List Str × Option Str) : List RequirementEntry × Bool :=
  match readRes.2 with
  | some _ => ([], true)
  | none => (readRes.1.filterMap parseRequirementLine, false)

/-- `get_installed_packages` (lines 7-13).  The environment enumeration is
modelled as an `Except`: a list of (metadata name, version) pairs on
success, an exception message on failure.  Names are lowercased; on
failure an empty dict is returned and a warning printed (second component
`true`). -/
def getInstalledPackages (env : Except Str (List (Str × Str))) :
    List (Str × Str) × Bool :=
  match env with
  | .error _ => ([], true)
  | .ok dists => (dists.map (fun p => (p.1.map Char.toLower, p.2)), false)

/-- Python dict lookup `installed_packages[pkg_name]` on an association
list with unique keys (`none` models `pkg_name not in installed_packages`). -/
def lookupInv (k : Str) : List (Str × Str) → Option Str
  | [] => none
  | (n, v) :: rest => if n = k then some v else lookupInv k rest

/-- `is_package_satisfied` (lines 52-74). -/
def isPackageSatisfied (e : RequirementEntry) (inv : List (Str × Str)) : Bool :=
  match lookupInv e.name inv with
  | none => false
  | some installed =>
    if e.version_spec.isEmpty || startsWithL ['['] e.version_spec then
      true
    else if startsWithL ['=', '='] e.version_spec then
      installed == pyStrip (removeEqEq e.version_spec)
    else
      false

/-- `check_requirements_satisfied` (lines 76-84): collect `spec` of every
unsatisfied entry, in order. -/
def checkRequirementsSatisfied : List RequirementEntry → List (Str × Str) → List Str
  | [], _ => []
  | e :: rest, inv =>
    if isPackageSatisfied e inv then
      checkRequirementsSatisfied rest inv
    else
      e.spec :: checkRequirementsSatisfied rest inv

/-- File-system / subprocess events performed by `install_packages`. -/
inductive FsEv where
  | createTemp
  | installerCall (verbose : Bool)
  | removeTemp
deriving DecidableEq, Repr

/-- Outcomes of the external interactions inside `install_packages`:
whether `NamedTemporaryFile` raises, whether the write raises, whether
each `subprocess.run` raises, the return codes otherwise, and whether
the `os.remove` in the `finally` block raises. -/
structure IWorld where
  createRaises : Bool
  writeRaises : Bool
  quietRaises : Bool
  quietRc : Nat
  verboseRaises : Bool
  verboseRc : Nat
  removeRaises : Bool
deriving DecidableEq, Repr

/-- Result of `install_packages`: the returned Boolean and the ordered
trace of file-system / subprocess events. -/
structure IResult where
  success : Bool
  trace : List FsEv
deriving DecidableEq, Repr

/-- The `try` body of `install_packages` (lines 93-126) after the
temporary file has been created: returns (returned value, installer
invocations), with every raised exception caught and turned into
`False` (lines 124-126). -/
def installPackagesBody (w : IWorld) : Bool × List FsEv :=
  if w.writeRaises then (false, [])
  else if w.quietRaises then (false, [.installerCall false])
  else if w.quietRc == 0 then (true, [.installerCall false])
  else if w.verboseRaises then (false, [.installerCall false, .installerCall true])
  else (w.verboseRc == 0, [.installerCall false, .installerCall true])

/-- `install_packages` (lines 86-133).  Empty input returns `True` with no
effects; if `NamedTemporaryFile` itself raises, `temp_req_file` is still
`None` and the `finally` block removes nothing; otherwise the `finally`
block (lines 127-133) attempts `os.remove` on the created file on every
exit path, but that call sits inside `try: ... except: pass`: if
`os.remove` itself raises, the failure is swallowed and the file is left
in place (no `removeTemp` event). -/
def installPackages (pkgs : List Str) (w : IWorld) : IResult :=
  if pkgs.isEmpty then ⟨true, []⟩
  else if w.createRaises then ⟨false, []⟩
  else
    let body := installPackagesBody w
    ⟨body.1, .createTemp :: body.2 ++ (if w.removeRaises then [] else [.removeTemp])⟩

/-- Whether the temporary file exists after the given event trace. -/
def tempAlive (t : List FsEv) : Bool :=
  t.foldl (fun a e => match e with
    | .createTemp => true
    | .removeTemp => false
    | .installerCall _ => a) false

/-- Number of installer (pip) subprocess invocations in a trace. -/
def installerCallCount (t : List FsEv) : Nat :=
  t.countP (fun e => match e with
    | .installerCall _ => true
    | _ => false)

/-- External-world outcomes for one run of `install_requirements`. -/
structure OWorld where
  manifestPresent : Bool
  envRes : Except Str (List (Str × Str))
  readRes : List Str × Option Str
  iw : IWorld
  fallbackRc : Nat

/-- Observable outcome of `install_requirements`: how many installer
subprocesses were invoked and the process exit status. -/
structure OResult where
  installerCalls : Nat
  exitCode : Nat
deriving DecidableEq, Repr

/-- `install_requirements` (lines 146-197): return early when the
manifest is absent, when no entries parse, or when every entry is
satisfied; otherwise run the optimized install, falling back to one
direct `pip install -r requirements.txt` call (lines 135-144) whose
failure yields `sys.exit(1)`. -/
def installRequirements (w : OWorld) : OResult :=
  if !w.manifestPresent then ⟨0, 0⟩
  else
    let installed := (getInstalledPackages w.envRes).1
    let required := (parseRequirements w.readRes).1
    if required.isEmpty then ⟨0, 0⟩
    else
      let toInstall := checkRequirementsSatisfied required installed
      if toInstall.isEmpty then ⟨0, 0⟩
      else
        let r := installPackages toInstall w.iw
        if r.success then ⟨installerCallCount r.trace, 0⟩
        else if w.fallbackRc == 0 then ⟨installerCallCount r.trace + 1, 0⟩
        else ⟨installerCallCount r.trace + 1, 1⟩

/-- `is_package_satisfied` with the `version_spec.startswith('[')`
defensive test removed, for stating that the test is unreachable on
parsed entries. -/
def isPackageSatisfiedNoExtras (e : RequirementEntry) (inv : List (Str × Str)) : Bool :=
  match lookupInv e.name inv with
  | none => false
  | some installed =>
    if e.version_spec.isEmpty then
      true
    else if startsWithL ['=', '='] e.version_spec then
      installed == pyStrip (removeEqEq e.version_spec)
    else
      false

/-! ### Helper lemmas -/

theorem mem_of_mem_dropWhile {p : Char → Bool} {c : Char} :
    ∀ l : Str, c ∈ l.dropWhile p → c ∈ l := by
  intro l h
  induction l with
  | nil => simp at h
  | cons a t ih =>
    by_cases hp : p a = true
    · simp only [List.dropWhile_cons, hp, if_true] at h
      exact List.mem_cons_of_mem a (ih h)
    · simp only [List.dropWhile_cons, hp, if_false] at h
      exact h

theorem mem_of_mem_pyStrip {c : Char} (l : Str) (h : c ∈ pyStrip l) : c ∈ l := by
  unfold pyStrip dropTrailing at h
  rw [List.mem_reverse] at h
  have h2 := mem_of_mem_dropWhile _ h
  rw [List.mem_reverse] at h2
  exact mem_of_mem_dropWhile _ h2

theorem dropWhile_eq_self_of_head {p : Char → Bool} {l : Str}
    (h : ∀ x, l.head? = some x → p x = false) : l.dropWhile p = l := by
  cases l with
  | nil => rfl
  | cons a t => simp [List.dropWhile_cons, h a rfl]

theorem pyStrip_eq_self {l : Str}
    (h1 : ∀ x, l.head? = some x → isPySpace x = false)
    (h2 : ∀ x, l.getLast? = some x → isPySpace x = false) :
    pyStrip l = l := by
  unfold pyStrip dropTrailing
  rw [dropWhile_eq_self_of_head h1]
  rw [dropWhile_eq_self_of_head (by simpa using h2), List.reverse_reverse]

theorem takeWhile_eq_self_of {p : Char → Bool} {l : Str}
    (h : ∀ x ∈ l, p x = true) : l.takeWhile p = l := by
  induction l with
  | nil => rfl
  | cons a t ih =>
    simp only [List.takeWhile_cons, h a (List.mem_cons_self a t), if_true]
    exact congrArg (a :: ·) (ih fun x hx => h x (List.mem_cons_of_mem a hx))

theorem takeWhile_append_eq {p : Char → Bool} {xs ys : Str}
    (hx : ∀ x ∈ xs, p x = true) (hy : ∀ x, ys.head? = some x → p x = false) :
    (xs ++ ys).takeWhile p = xs ∧ (xs ++ ys).dropWhile p = ys := by
  induction xs with
  | nil =>
    refine ⟨?_, ?_⟩
    · cases ys with
      | nil => rfl
      | cons b t => simp [List.takeWhile_cons, hy b rfl]
    · simpa using dropWhile_eq_self_of_head hy
  | cons a t ih =>
    have ha : p a = true := hx a (List.mem_cons_self a t)
    have iht := ih fun x hxm => hx x (List.mem_cons_of_mem a hxm)
    constructor
    · simp only [List.cons_append, List.takeWhile_cons, ha, if_true]
      exact congrArg (a :: ·) iht.1
    · simp only [List.cons_append, List.dropWhile_cons, ha, if_true]
      exact iht.2

theorem isNameChar_facts {c : Char} (h : isNameChar c = true) :
    isPySpace c = false ∧ c ≠ '#' ∧ c ≠ '[' ∧ c ≠ '=' ∧ c ≠ '\n' := by
  refine ⟨?_, ?_, ?_, ?_, ?_⟩
  · cases hs : isPySpace c with
    | false => rfl
    | true =>
      exfalso
      simp only [isPySpace, Bool.or_eq_true, beq_iff_eq] at hs
      rcases hs with (((((rfl | rfl) | rfl) | rfl) | rfl) | rfl) <;>
        exact absurd h (by decide)
  all_goals intro hc; subst hc; exact absurd h (by decide)

theorem startsWithL_two {a b : Char} {v : Str}
    (h : startsWithL [a, b] v = true) : ∃ t, v = a :: b :: t := by
  match v with
  | [] => exact absurd h (by simp [startsWithL])
  | [c] => exact absurd h (by simp [startsWithL])
  | c :: d :: t =>
    simp only [startsWithL, Bool.and_eq_true, beq_iff_eq] at h
    obtain ⟨rfl, rfl, -⟩ := h
    exact ⟨t, rfl⟩

/-- Unfolded form of `parseRequirementLine` on a line that passes the
skip tests and has a nonempty leading name run. -/
theorem parseRequirementLine_some {line : Str} {e : RequirementEntry}
    (h : parseRequirementLine line = some e) :
    e.spec = pyStrip line ∧
    e.version_spec =
      pyStrip ((((pyStrip line).takeWhile (fun c => !(c == '['))).dropWhile
        isNameChar).takeWhile (fun c => !(c == '\n'))) := by
  unfold parseRequirementLine at h
  simp only [] at h
  split at h
  · exact absurd h (by simp)
  · split at h
    · exact absurd h (by simp)
    · cases h
      exact ⟨rfl, rfl⟩

theorem mem_of_mem_takeWhile {p : Char → Bool} {c : Char} :
    ∀ l : Str, c ∈ l.takeWhile p → c ∈ l := by
  intro l h
  induction l with
  | nil => simp [List.takeWhile] at h
  | cons a t ih =>
    by_cases hp : p a = true
    · simp only [List.takeWhile_cons, hp, if_true] at h
      rcases List.mem_cons.mp h with rfl | h2
      · exact List.mem_cons_self c t
      · exact List.mem_cons_of_mem a (ih h2)
    · simp [List.takeWhile_cons, hp] at h

/-- Every character of a parsed entry's `version_spec` comes from before
the first `[` of the stripped line, so `[` itself never occurs in it. -/
theorem version_spec_no_bracket {line : Str} {e : RequirementEntry}
    (h : parseRequirementLine line = some e) : '[' ∉ e.version_spec := by
  intro hm
  rw [(parseRequirementLine_some h).2] at hm
  have h1 := mem_of_mem_pyStrip _ hm
  have h2 := mem_of_mem_takeWhile _ h1
  have h3 := mem_of_mem_dropWhile _ h2
  have h4 := List.mem_takeWhile_imp h3
  simp at h4

theorem startsWith_bracket_false {v : Str} (h : '[' ∉ v) :
    startsWithL ['['] v = false := by
  cases v with
  | nil => rfl
  | cons c t =>
    have hc : c ≠ '[' := fun hcc => h (hcc ▸ List.mem_cons_self c t)
    have hc2 : ¬('[' = c) := fun hcc => hc hcc.symm
    simp [startsWithL, hc2]

theorem getLast_eqeq_facts {ver : Str}
    (hlast : ∀ c, ver.getLast? = some c → isPySpace c = false) :
    ∀ x, ('=' :: '=' :: ver).getLast? = some x → isPySpace x = false := by
  intro x hx
  cases hv : ver with
  | nil =>
    subst hv
    simp at hx
    subst hx
    decide
  | cons c t =>
    have : ('=' :: '=' :: ver) = ['=', '='] ++ ver := rfl
    rw [this, List.getLast?_append_of_ne_nil _ (by simp [hv])] at hx
    exact hlast x hx

/-! ### Claims -/

/-- Claim C1: with inventory `{"requests": "2.31.0"}`, the satisfaction
check on the parsed entry of `requests==2.31.0` returns true, on
`requests==2.30.0` returns false, and on `requests>=2.0` returns false
(non-equality operators are delegated to pip). -/
theorem satisfaction_check_requests_inventory :
    ((parseRequirementLine "requests==2.31.0".data).map
      (fun e => isPackageSatisfied e [("requests".data, "2.31.0".data)]) = some true) ∧
    ((parseRequirementLine "requests==2.30.0".data).map
      (fun e => isPackageSatisfied e [("requests".data, "2.31.0".data)]) = some false) ∧
    ((parseRequirementLine "requests>=2.0".data).map
      (fun e => isPackageSatisfied e [("requests".data, "2.31.0".data)]) = some false) :=
  ⟨by decide, by decide, by decide⟩

/-- Claim C2, counterexample to the claim as stated: the entry parsed
from `a == 1.0` has `version_spec` `== 1.0`, which begins with `==`; the
installed version ` 1.0` is byte-for-byte the text of the specifier after
the `==` operator, yet `is_package_satisfied` returns false — the code
strips whitespace (and removes every occurrence of `==`) before
comparing. -/
theorem eq_specifier_not_byte_equal_after_operator :
    parseRequirementLine "a == 1.0".data =
      some ⟨"a".data, "a == 1.0".data, "== 1.0".data⟩ ∧
    startsWithL ['=', '='] "== 1.0".data = true ∧
    lookupInv "a".data [("a".data, " 1.0".data)] =
      some (List.drop 2 "== 1.0".data) ∧
    isPackageSatisfied ⟨"a".data, "a == 1.0".data, "== 1.0".data⟩
      [("a".data, " 1.0".data)] = false :=
  ⟨by decide, by decide, by decide, by decide⟩

/-- Claim C2 (amended): for every entry whose name is in the inventory
and whose version specifier begins with `==`, `is_package_satisfied`
returns true iff the installed version string equals the specifier text
with every occurrence of `==` removed and surrounding whitespace
stripped. -/
theorem eq_specifier_satisfaction (e : RequirementEntry)
    (inv : List (Str × Str)) (v : Str)
    (hl : lookupInv e.name inv = some v)
    (hpre : startsWithL ['=', '='] e.version_spec = true) :
    isPackageSatisfied e inv = true ↔ v = pyStrip (removeEqEq e.version_spec) := by
  obtain ⟨t, ht⟩ := startsWithL_two hpre
  unfold isPackageSatisfied
  rw [hl, ht]
  simp [startsWithL, List.isEmpty]

/-- Witness for `eq_specifier_satisfaction` at a concrete entry. -/
theorem eq_specifier_satisfaction_witness :
    isPackageSatisfied ⟨"requests".data, "requests==2.31.0".data, "==2.31.0".data⟩
        [("requests".data, "2.31.0".data)] = true ↔
      "2.31.0".data = pyStrip (removeEqEq "==2.31.0".data) :=
  eq_specifier_satisfaction ⟨"requests".data, "requests==2.31.0".data, "==2.31.0".data⟩
    [("requests".data, "2.31.0".data)] "2.31.0".data (by decide) (by decide)

/-- Claim C3, counterexample to the claim as stated: `http-client==2.0`
is a `name==version` line whose name is made of letters and hyphens, yet
`parse_requirement_line` drops it (the stripped line starts with `http`),
yielding no entry at all. -/
theorem name_eq_version_http_prefixed_dropped :
    parseRequirementLine "http-client==2.0".data = none := by decide

/-- Claim C3 (amended): for every line `name==version` where `name` is a
nonempty run of characters from `[a-zA-Z0-9_-]`, the line does not start
with `http`, and `version` contains no `[` and no newline and does not
end in whitespace, `parse_requirement_line` yields the entry whose name
is `name` lowercased with underscores replaced by hyphens and whose
`version_spec` is exactly `==` followed by `version`. -/
theorem parse_name_eq_version_line (nm ver : Str)
    (hne : nm ≠ [])
    (hchars : ∀ c ∈ nm, isNameChar c = true)
    (hver : ∀ c ∈ ver, c ≠ '[' ∧ c ≠ '\n')
    (hlast : ∀ c, ver.getLast? = some c → isPySpace c = false)
    (hhttp : startsWithL ['h', 't', 't', 'p'] (nm ++ '=' :: '=' :: ver) = false) :
    parseRequirementLine (nm ++ '=' :: '=' :: ver) =
      some ⟨(nm.map Char.toLower).map (fun c => if c == '_' then '-' else c),
            nm ++ '=' :: '=' :: ver, '=' :: '=' :: ver⟩ := by
  obtain ⟨a, t, rfl⟩ : ∃ a t, nm = a :: t := by
    cases nm with
    | nil => exact absurd rfl hne
    | cons a t => exact ⟨a, t, rfl⟩
  have ha : isNameChar a = true := hchars a (List.mem_cons_self a t)
  have hafacts := isNameChar_facts ha
  have hstrip : pyStrip ((a :: t) ++ '=' :: '=' :: ver) = (a :: t) ++ '=' :: '=' :: ver := by
    refine pyStrip_eq_self ?_ ?_
    · intro x hx
      simp only [List.cons_append, List.head?_cons, Option.some.injEq] at hx
      subst hx
      exact hafacts.1
    · intro x hx
      rw [List.getLast?_append_of_ne_nil _ (by simp)] at hx
      exact getLast_eqeq_facts hlast x hx
  have hskip : (((a :: t) ++ '=' :: '=' :: ver).isEmpty ||
      startsWithL ['#'] ((a :: t) ++ '=' :: '=' :: ver) ||
      startsWithL ['h', 't', 't', 'p'] ((a :: t) ++ '=' :: '=' :: ver)) = false := by
    have h1 : ((a :: t) ++ '=' :: '=' :: ver).isEmpty = false := rfl
    have h2 : startsWithL ['#'] ((a :: t) ++ '=' :: '=' :: ver) = false := by
      have : ¬('#' = a) := fun hcc => hafacts.2.1 hcc.symm
      simp [startsWithL, this]
    rw [h1, h2, hhttp]
    rfl
  have hpp : ((a :: t) ++ '=' :: '=' :: ver).takeWhile (fun c => !(c == '[')) =
      (a :: t) ++ '=' :: '=' :: ver := by
    refine takeWhile_eq_self_of ?_
    intro c hc
    simp only [Bool.not_eq_true', beq_eq_false_iff_ne, ne_eq]
    rcases List.mem_append.mp hc with hcn | hcv
    · exact (isNameChar_facts (hchars c hcn)).2.2.1
    · rcases List.mem_cons.mp hcv with rfl | hcv2
      · decide
      · rcases List.mem_cons.mp hcv2 with rfl | hcv3
        · decide
        · exact (hver c hcv3).1
  have hsplit := @takeWhile_append_eq isNameChar (a :: t) ('=' :: '=' :: ver) hchars
    (by intro x hx; simp only [List.head?_cons, Option.some.injEq] at hx; subst hx; decide)
  have hrest : ('=' :: '=' :: ver).takeWhile (fun c => !(c == '\n')) =
      '=' :: '=' :: ver := by
    refine takeWhile_eq_self_of ?_
    intro c hc
    simp only [Bool.not_eq_true', beq_eq_false_iff_ne, ne_eq]
    rcases List.mem_cons.mp hc with rfl | hc2
    · decide
    · rcases List.mem_cons.mp hc2 with rfl | hc3
      · decide
      · exact (hver c hc3).2
  have hvs : pyStrip ('=' :: '=' :: ver) = '=' :: '=' :: ver := by
    refine pyStrip_eq_self ?_ (getLast_eqeq_facts hlast)
    intro x hx
    simp only [List.head?_cons, Option.some.injEq] at hx
    subst hx
    decide
  simp only [parseRequirementLine, hstrip, hskip, Bool.false_eq_true, if_false, hpp,
    hsplit.1, hsplit.2, hrest, hvs, List.isEmpty_cons, if_false]

/-- Witness for `parse_name_eq_version_line` at `Torch_Vision==1.2`. -/
theorem parse_name_eq_version_line_witness :
    parseRequirementLine ("Torch_Vision".data ++ '=' :: '=' :: "1.2".data) =
      some ⟨("Torch_Vision".data.map Char.toLower).map
              (fun c => if c == '_' then '-' else c),
            "Torch_Vision".data ++ '=' :: '=' :: "1.2".data,
            '=' :: '=' :: "1.2".data⟩ :=
  parse_name_eq_version_line "Torch_Vision".data "1.2".data (by decide) (by decide)
    (by decide) (by decide) (by decide)

/-- Claim C4, counterexample to the claim as stated: the entry parsed
from the manifest line `"  pytest==9.9"` (leading whitespace) is judged
unsatisfied against an empty inventory, but `check_requirements_satisfied`
returns the stripped text `"pytest==9.9"`, not the original raw line
verbatim. -/
theorem check_returns_stripped_not_verbatim :
    checkRequirementsSatisfied (["  pytest==9.9".data].filterMap parseRequirementLine) [] =
      ["pytest==9.9".data] ∧
    "pytest==9.9".data ≠ "  pytest==9.9".data :=
  ⟨by decide, by decide⟩

/-- Claim C4 (amended): `check_requirements_satisfied` returns, in
manifest order, the stored `spec` text of each entry judged unsatisfied;
the `spec` stored by `parse_requirement_line` is the stripped text of the
original manifest line (leading/trailing whitespace removed), not the
verbatim original. -/
theorem check_returns_specs_in_order :
    (∀ (entries : List RequirementEntry) (inv : List (Str × Str)),
      checkRequirementsSatisfied entries inv =
        (entries.filter (fun e => !(isPackageSatisfied e inv))).map
          RequirementEntry.spec) ∧
    (∀ (line : Str) (e : RequirementEntry), parseRequirementLine line = some e →
      e.spec = pyStrip line) := by
  constructor
  · intro entries inv
    induction entries with
    | nil => rfl
    | cons e rest ih =>
      cases hs : isPackageSatisfied e inv <;>
        simp [checkRequirementsSatisfied, hs, ih, List.filter_cons]
  · intro line e h
    exact (parseRequirementLine_some h).1

/-- Witness for `check_returns_specs_in_order` at a concrete line. -/
theorem check_returns_specs_in_order_witness :
    parseRequirementLine "  pip-tools==7.4.1".data =
      some ⟨"pip-tools".data, "pip-tools==7.4.1".data, "==7.4.1".data⟩ ∧
    (RequirementEntry.mk "pip-tools".data "pip-tools==7.4.1".data "==7.4.1".data).spec =
      pyStrip "  pip-tools==7.4.1".data :=
  ⟨by decide, check_returns_specs_in_order.2 "  pip-tools==7.4.1".data
      ⟨"pip-tools".data, "pip-tools==7.4.1".data, "==7.4.1".data⟩ (by decide)⟩

/-- Claim C5: `install_requirements` performs zero installer invocations
and exits 0 when the manifest file is absent, and performs zero installer
invocations (and exits 0) whenever the computed unsatisfied subset is
empty. -/
theorem orchestration_no_installer_calls (w : OWorld) :
    (w.manifestPresent = false → installRequirements w = ⟨0, 0⟩) ∧
    (checkRequirementsSatisfied (parseRequirements w.readRes).1
        (getInstalledPackages w.envRes).1 = [] →
      installRequirements w = ⟨0, 0⟩) := by
  constructor
  · intro h
    unfold installRequirements
    simp [h]
  · intro h
    unfold installRequirements
    by_cases hm : w.manifestPresent = true
    · simp only [hm, Bool.not_true, Bool.false_eq_true, if_false]
      by_cases hr : (parseRequirements w.readRes).1.isEmpty
      · simp [hr]
      · simp [hr, h]
    · simp [Bool.not_eq_true] at hm
      simp [hm]

/-- Witness for `orchestration_no_installer_calls`: an absent manifest,
and a present manifest whose one requirement is already satisfied. -/
theorem orchestration_no_installer_calls_witness :
    installRequirements ⟨false, Except.ok [], ([], none),
      ⟨false, false, false, 0, false, 0, false⟩, 0⟩ = ⟨0, 0⟩ ∧
    installRequirements ⟨true, Except.ok [("requests".data, "2.31.0".data)],
      (["requests==2.31.0".data], none),
      ⟨false, false, false, 0, false, 0, false⟩, 0⟩ = ⟨0, 0⟩ :=
  ⟨(orchestration_no_installer_calls _).1 rfl,
   (orchestration_no_installer_calls _).2 (by decide)⟩

/-- Claim C6, counterexample to the claim as stated: in a run of
`install_packages` on a nonempty list where the installer invocation
succeeds but the `os.remove` in the `finally` block raises, the
`except: pass` swallows the failure and the temporary file survives the
call — so removal is not guaranteed on every exit path. -/
theorem temp_file_survives_remove_failure :
    tempAlive (installPackages ["a".data]
      ⟨false, false, false, 0, false, 0, true⟩).trace = true := by decide

/-- Claim C6 (amended): the `finally` block of `install_packages`
removes the temporary filtered manifest file on every exit path —
installer success, installer failure, or an exception anywhere in the
body — provided the `os.remove` call itself does not raise; a raising
`os.remove` is swallowed by `except: pass` and leaves the file in
place. -/
theorem temp_file_removed_unless_remove_fails (pkgs : List Str) (w : IWorld)
    (h : w.removeRaises = false) :
    tempAlive (installPackages pkgs w).trace = false := by
  unfold installPackages
  split
  · rfl
  · split
    · rfl
    · simp [h, tempAlive, List.foldl_append]

/-- Witness for `temp_file_removed_unless_remove_fails`: a failing quiet
install retried verbosely and still failing, with a working `os.remove` —
the temp file is gone at exit. -/
theorem temp_file_removed_unless_remove_fails_witness :
    tempAlive (installPackages ["a".data]
      ⟨false, false, false, 1, false, 2, false⟩).trace = false :=
  temp_file_removed_unless_remove_fails ["a".data]
    ⟨false, false, false, 1, false, 2, false⟩ rfl

/-- Claim C7: when reading the manifest fails, `parse_requirements` logs
the error (flag `true`) and returns the empty entry list — any entries
accumulated before the failure are discarded rather than an exception
propagating. -/
theorem parse_requirements_read_failure (lines : List Str) (err : Str) :
    parseRequirements (lines, some err) = ([], true) := rfl

/-- Claim C8: whenever enumerating the installed packages fails,
`get_installed_packages` returns the empty mapping and emits a warning
(flag `true`) instead of propagating the exception. -/
theorem installed_packages_failure_empty (msg : Str) :
    getInstalledPackages (Except.error msg) = ([], true) := rfl

/-- Claim C9, counterexample to the claim as stated: the line `a>=1[x]`
contains `[`, yet its parsed entry's `version_spec` is `>=1`, not the
empty string — the claim's "version_spec is always the empty string" only
holds when the first `[` directly follows the name. -/
theorem bracket_line_version_spec_nonempty :
    (parseRequirementLine "a>=1[x]".data).map (fun e => e.version_spec) =
      some ">=1".data ∧ ">=1".data ≠ ([] : Str) :=
  ⟨by decide, by decide⟩

/-- Claim C9 (amended): `parse_requirement_line` discards everything from
the first `[` before extracting the name, so a parsed entry's
`version_spec` never contains (hence never starts with) `[`; the
extras-remnant branch of `is_package_satisfied` is therefore unreachable
on parsed entries, and `pkg[extras]==1.0` is judged satisfied by mere
presence of `pkg`, ignoring the `==1.0` constraint. -/
theorem extras_branch_unreachable :
    (∀ (line : Str) (e : RequirementEntry), parseRequirementLine line = some e →
      '[' ∉ e.version_spec ∧ startsWithL ['['] e.version_spec = false) ∧
    (∀ (line : Str) (e : RequirementEntry) (inv : List (Str × Str)),
      parseRequirementLine line = some e →
      isPackageSatisfied e inv = isPackageSatisfiedNoExtras e inv) ∧
    ((parseRequirementLine "pkg[extras]==1.0".data).map
      (fun e => (e.version_spec, isPackageSatisfied e [("pkg".data, "0.0.1".data)])) =
      some ([], true)) := by
  refine ⟨?_, ?_, by decide⟩
  · intro line e h
    exact ⟨version_spec_no_bracket h, startsWith_bracket_false (version_spec_no_bracket h)⟩
  · intro line e inv h
    have hb := startsWith_bracket_false (version_spec_no_bracket h)
    cases hl : lookupInv e.name inv <;>
      simp [isPackageSatisfied, isPackageSatisfiedNoExtras, hl, hb]

/-- Witness for `extras_branch_unreachable` at a concrete parsed line. -/
theorem extras_branch_unreachable_witness :
    parseRequirementLine "a==1[x]".data =
      some ⟨"a".data, "a==1[x]".data, "==1".data⟩ ∧
    '[' ∉ (RequirementEntry.mk "a".data "a==1[x]".data "==1".data).version_spec :=
  ⟨by decide, (extras_branch_unreachable.1 "a==1[x]".data
      ⟨"a".data, "a==1[x]".data, "==1".data⟩ (by decide)).1⟩

/-- Claim C10: every line whose stripped text starts with `http` is
silently dropped by `parse_requirement_line`, including the syntactically
valid requirement `httpx==1.0`. -/
theorem http_prefixed_lines_dropped :
    (∀ line : Str, startsWithL ['h', 't', 't', 'p'] (pyStrip line) = true →
      parseRequirementLine line = none) ∧
    parseRequirementLine "httpx==1.0".data = none := by
  constructor
  · intro line h
    unfold parseRequirementLine
    simp [h]
  · decide

/-- Witness for `http_prefixed_lines_dropped` at a URL line. -/
theorem http_prefixed_lines_dropped_witness :
    parseRequirementLine "https://example.com/pkg.whl".data = none :=
  http_prefixed_lines_dropped.1 "https://example.com/pkg.whl".data (by decide)

end InstallReq
